import Mathlib

/-!
Verification of the pngme chunk codec (`src/chunk.rs`, `src/chunk_type.rs`)
and of the spec-described chunk container.

Shallow embedding conventions:
* `u8` values are `Nat` (bounds `< 256` appear as hypotheses where they matter);
* `u32` arithmetic is `Nat` with explicit `% 2 ^ 32` where the source truncates;
* fallible Rust functions return `Except PngError`;
* `Chunk::try_from` can also panic in Rust (out-of-bounds slice indexing at
  `bytes[8..8 + data_length]` and `bytes[8 + data_length..8 + data_length + 4]`),
  so it returns a three-valued `ParseResult` with an `indexOutOfBounds` outcome
  modelling the panic.
-/

set_option maxHeartbeats 1000000

/-- Models `u8::is_ascii_uppercase`: byte values 65 to 90. -/
def isAsciiUppercase (b : Nat) : Bool := 65 ≤ b && b ≤ 90

/-- Models `u8::is_ascii_lowercase`: byte values 97 to 122. -/
def isAsciiLowercase (b : Nat) : Bool := 97 ≤ b && b ≤ 122

/-- Models `u8::is_ascii_alphabetic`: uppercase or lowercase ASCII letter. -/
def isAsciiAlphabetic (b : Nat) : Bool := isAsciiUppercase b || isAsciiLowercase b

/-- Structured error values for the codec; the Rust source uses `anyhow`
error strings, reproduced by `PngError.message`. -/
inductive PngError where
  | chunkTypeNotAlphabetic : PngError
  | chunkTypeWrongLength : PngError
  | notEnoughBytes : PngError
  | invalidChunkType (b0 b1 b2 b3 : Nat) : PngError
  | crcMismatch (computed stored : Nat) : PngError
  | chunkNotFound : PngError
deriving DecidableEq

/-- The `anyhow` message carried by each error, as formatted in the source. -/
def PngError.message : PngError → String
  | .chunkTypeNotAlphabetic => "Invalid bytes passed, need to be all ascii alphabetic!"
  | .chunkTypeWrongLength => "could not convert slice to array"
  | .notEnoughBytes => "Not enough bytes for parsing length and chunk type for chunk!"
  | .invalidChunkType b0 b1 b2 b3 =>
      "Invalid chunk type: " ++ String.mk [Char.ofNat b0, Char.ofNat b1, Char.ofNat b2, Char.ofNat b3]
  | .crcMismatch computed stored =>
      "CRC not matching, expected \x27" ++ toString computed ++ "\x27, was \x27" ++
        toString stored ++ "\x27"
  | .chunkNotFound => "chunk not found"

/-- Models `ChunkType([u8; 4])`: the four bytes of a PNG chunk type code. -/
structure ChunkType where
  b0 : Nat
  b1 : Nat
  b2 : Nat
  b3 : Nat
deriving DecidableEq

/-- Models `ChunkType::bytes`. -/
def ChunkType.bytes (t : ChunkType) : List Nat := [t.b0, t.b1, t.b2, t.b3]

/-- Models `ChunkType::is_critical`: first byte uppercase. -/
def ChunkType.is_critical (t : ChunkType) : Bool := isAsciiUppercase t.b0

/-- Models `ChunkType::is_public`: second byte uppercase. -/
def ChunkType.is_public (t : ChunkType) : Bool := isAsciiUppercase t.b1

/-- Models `ChunkType::is_reserved_bit_valid`: third byte uppercase. -/
def ChunkType.is_reserved_bit_valid (t : ChunkType) : Bool := isAsciiUppercase t.b2

/-- Models `ChunkType::is_safe_to_copy`: fourth byte lowercase. -/
def ChunkType.is_safe_to_copy (t : ChunkType) : Bool := isAsciiLowercase t.b3

/-- Models `ChunkType::is_valid`: all four bytes alphabetic and the reserved bit valid. -/
def ChunkType.is_valid (t : ChunkType) : Bool :=
  (isAsciiAlphabetic t.b0 && isAsciiAlphabetic t.b1 &&
   isAsciiAlphabetic t.b2 && isAsciiAlphabetic t.b3) && t.is_reserved_bit_valid

/-- Models `impl TryFrom<[u8; 4]> for ChunkType`: succeeds iff all four bytes are
ASCII alphabetic. -/
def ChunkType.try_from (b0 b1 b2 b3 : Nat) : Except PngError ChunkType :=
  if isAsciiAlphabetic b0 && isAsciiAlphabetic b1 &&
     isAsciiAlphabetic b2 && isAsciiAlphabetic b3 then
    .ok ⟨b0, b1, b2, b3⟩
  else
    .error .chunkTypeNotAlphabetic

/-- Models `impl FromStr for ChunkType`: the string is represented by its UTF-8 byte
sequence; `s.as_bytes().try_into()` fails unless it has exactly 4 bytes. -/
def ChunkType.from_str (s : List Nat) : Except PngError ChunkType :=
  match s with
  | [b0, b1, b2, b3] => ChunkType.try_from b0 b1 b2 b3
  | _ => .error .chunkTypeWrongLength

/-- The reflected CRC-32/ISO-HDLC generator polynomial. -/
def CRC32_POLY : Nat := 0xEDB88320

/-- One bit-step of the reflected CRC-32 register update. -/
def crc32Step1 (c : Nat) : Nat := (c / 2) ^^^ (c % 2 * CRC32_POLY)

/-- Absorb one byte into the CRC-32 register: xor it in, then 8 bit-steps. -/
def crc32UpdateByte (c b : Nat) : Nat := crc32Step1^[8] (c ^^^ b)

/-- Models the `crc::Crc::<u32>::new(&crc::CRC_32_ISO_HDLC)` digest over a byte list:
initial value `0xFFFFFFFF`, final xor `0xFFFFFFFF`. -/
def crc32 (l : List Nat) : Nat :=
  (l.foldl crc32UpdateByte 0xFFFFFFFF) ^^^ 0xFFFFFFFF

/-- Models `struct Chunk`, with `chunk_type: ChunkType` and `data: Vec<u8>`. -/
structure Chunk where
  chunk_type : ChunkType
  data : List Nat
deriving DecidableEq

/-- Models `Chunk::length`: `self.data.len() as u32` (the `as` cast truncates). -/
def Chunk.length (c : Chunk) : Nat := c.data.length % 2 ^ 32

/-- Models `Chunk::crc`: CRC-32/ISO-HDLC over type bytes followed by data. -/
def Chunk.crc (c : Chunk) : Nat := crc32 (c.chunk_type.bytes ++ c.data)

/-- Models `u32::to_be_bytes`. -/
def u32ToBE (n : Nat) : List Nat :=
  [n / 2 ^ 24 % 256, n / 2 ^ 16 % 256, n / 2 ^ 8 % 256, n % 256]

/-- Models `u32::from_be_bytes`. -/
def u32FromBE (a b c d : Nat) : Nat := ((a * 256 + b) * 256 + c) * 256 + d

/-- Models `Chunk::as_bytes`: big-endian length, type bytes, data, big-endian CRC. -/
def Chunk.as_bytes (c : Chunk) : List Nat :=
  u32ToBE c.length ++ c.chunk_type.bytes ++ c.data ++ u32ToBE c.crc

/-- Outcome of `Chunk::try_from(&[u8])`: success, an `anyhow` error, or a
Rust panic from out-of-bounds slice indexing. -/
inductive ParseResult (α : Type) where
  | ok : α → ParseResult α
  | err : PngError → ParseResult α
  | indexOutOfBounds : ParseResult α
deriving DecidableEq

/-- Reads the value of the big-endian length field `bytes[0..4]`. -/
def dataLen (bs : List Nat) : Nat :=
  u32FromBE (bs.getD 0 0) (bs.getD 1 0) (bs.getD 2 0) (bs.getD 3 0)

/-- Reads the data slice `bytes[8..8 + data_length]`. -/
def parsedData (bs : List Nat) : List Nat := (bs.drop 8).take (dataLen bs)

/-- The stored CRC field `bytes[8 + data_length..8 + data_length + 4]`,
read big-endian. -/
def storedCrc (bs : List Nat) : Nat :=
  u32FromBE (bs.getD (8 + dataLen bs) 0) (bs.getD (8 + dataLen bs + 1) 0)
    (bs.getD (8 + dataLen bs + 2) 0) (bs.getD (8 + dataLen bs + 3) 0)

/-- Models `impl TryFrom<&[u8]> for Chunk`, line by line: length guard, length field,
type bytes, `is_valid` gate, data slice (panics when `8 + data_length`
exceeds the slice length), CRC slice (panics when `8 + data_length + 4`
exceeds the slice length), CRC comparison. -/
def Chunk.try_from (bytes : List Nat) : ParseResult Chunk :=
  if bytes.length < 8 then
    .err .notEnoughBytes
  else
    match ChunkType.try_from (bytes.getD 4 0) (bytes.getD 5 0) (bytes.getD 6 0) (bytes.getD 7 0) with
    | .error e => .err e
    | .ok chunk_type =>
      if ¬ chunk_type.is_valid then
        .err (.invalidChunkType chunk_type.b0 chunk_type.b1 chunk_type.b2 chunk_type.b3)
      else if bytes.length < 8 + dataLen bytes then
        .indexOutOfBounds
      else if bytes.length < 8 + dataLen bytes + 4 then
        .indexOutOfBounds
      else
        let chunk : Chunk := ⟨chunk_type, parsedData bytes⟩
        if chunk.crc ≠ storedCrc bytes then
          .err (.crcMismatch chunk.crc (storedCrc bytes))
        else
          .ok chunk

/-- Modelled from the spec: the container module `png.rs` (`struct Png`) is
declared in `src/lib.rs` but its source is not under `src/`; following
spec section 3, a container is an ordered sequence of chunks (the fixed
signature is irrelevant to the removal operation). -/
structure Png where
  chunks : List Chunk

/-- Modelled from the spec: helper for `remove_by_type` — remove the first
chunk in the list whose type bytes equal the given 4-byte string, returning
it together with the remaining list in order. -/
def removeFirstChunk (t : List Nat) : List Chunk → Option (Chunk × List Chunk)
  | [] => none
  | c :: cs =>
    if c.chunk_type.bytes = t then
      some (c, cs)
    else
      match removeFirstChunk t cs with
      | none => none
      | some (r, rest) => some (r, c :: rest)

/-- Modelled from the spec: `Png::remove_chunk` / spec section 4.2
`remove_by_type(type_string)` — find and remove the first chunk whose
type 4-character text (modelled as its 4 UTF-8 bytes) equals
`type_string`; return the removed chunk (with the updated container);
fail with a chunk-not-found error if no match exists. -/
def Png.remove_by_type (p : Png) (t : List Nat) : Except PngError (Chunk × Png) :=
  match removeFirstChunk t p.chunks with
  | some (c, rest) => .ok (c, ⟨rest⟩)
  | none => .error .chunkNotFound

/-! ### CRC-32 register algebra -/

theorem xorLeftComm (a b c : Nat) : a ^^^ (b ^^^ c) = b ^^^ (a ^^^ c) := by
  rw [← Nat.xor_assoc, Nat.xor_comm a b, Nat.xor_assoc]

theorem xorCancel (a b : Nat) : a ^^^ (a ^^^ b) = b := by
  rw [← Nat.xor_assoc, Nat.xor_self, Nat.zero_xor]

theorem crc32Step1_linear (x y : Nat) :
    crc32Step1 (x ^^^ y) = crc32Step1 x ^^^ crc32Step1 y := by
  unfold crc32Step1
  rw [Nat.xor_div_two]
  rcases Nat.mod_two_eq_zero_or_one x with hx | hx <;>
    rcases Nat.mod_two_eq_zero_or_one y with hy | hy <;>
      rw [Nat.xor_mod_two_eq, Nat.add_mod, hx, hy] <;>
        simp [Nat.xor_assoc, Nat.xor_comm, xorLeftComm, xorCancel]

theorem crc32Step1_lt (c : Nat) (h : c < 2 ^ 32) : crc32Step1 c < 2 ^ 32 := by
  unfold crc32Step1
  have h1 : c / 2 < 2 ^ 32 := lt_of_le_of_lt (Nat.div_le_self c 2) h
  have h2 : c % 2 * CRC32_POLY < 2 ^ 32 := by
    unfold CRC32_POLY
    omega
  exact Nat.xor_lt_two_pow h1 h2

theorem crc32Step1_ne_zero (c : Nat) (hlt : c < 2 ^ 32) (h : c ≠ 0) :
    crc32Step1 c ≠ 0 := by
  unfold crc32Step1
  intro heq
  have hdm := Nat.xor_eq_zero.mp heq
  unfold CRC32_POLY at hdm
  omega

theorem crc32Iter_lt (n c : Nat) (h : c < 2 ^ 32) : crc32Step1^[n] c < 2 ^ 32 := by
  induction n generalizing c with
  | zero => simpa using h
  | succ n ih =>
    rw [Function.iterate_succ_apply]
    exact ih _ (crc32Step1_lt c h)

theorem crc32Iter_ne_zero (n c : Nat) (hlt : c < 2 ^ 32) (h : c ≠ 0) :
    crc32Step1^[n] c ≠ 0 := by
  induction n generalizing c with
  | zero => simpa using h
  | succ n ih =>
    rw [Function.iterate_succ_apply]
    exact ih _ (crc32Step1_lt c hlt) (crc32Step1_ne_zero c hlt h)

theorem crc32Iter_linear (n x y : Nat) :
    crc32Step1^[n] (x ^^^ y) = crc32Step1^[n] x ^^^ crc32Step1^[n] y := by
  induction n generalizing x y with
  | zero => simp
  | succ n ih =>
    rw [Function.iterate_succ_apply, Function.iterate_succ_apply,
      Function.iterate_succ_apply, crc32Step1_linear, ih]

theorem crc32UpdateByte_xor (c d b : Nat) :
    crc32UpdateByte (c ^^^ d) b = crc32UpdateByte c b ^^^ crc32Step1^[8] d := by
  unfold crc32UpdateByte
  rw [show c ^^^ d ^^^ b = (c ^^^ b) ^^^ d by
        rw [Nat.xor_assoc, Nat.xor_assoc, Nat.xor_comm d b],
    crc32Iter_linear]

theorem crc32UpdateByte_lt (c b : Nat) (hc : c < 2 ^ 32) (hb : b < 256) :
    crc32UpdateByte c b < 2 ^ 32 := by
  unfold crc32UpdateByte
  exact crc32Iter_lt _ _ (Nat.xor_lt_two_pow hc (by omega))

theorem foldl_crc32_xor (l : List Nat) (c d : Nat) :
    List.foldl crc32UpdateByte (c ^^^ d) l =
      List.foldl crc32UpdateByte c l ^^^ crc32Step1^[8 * l.length] d := by
  induction l generalizing c d with
  | nil => simp
  | cons b l ih =>
    rw [List.foldl_cons, List.foldl_cons, crc32UpdateByte_xor, ih,
      show 8 * (b :: l).length = 8 * l.length + 8 by simp [Nat.mul_succ],
      Function.iterate_add_apply]

theorem foldl_crc32_lt (l : List Nat) (c : Nat) (hc : c < 2 ^ 32)
    (hl : ∀ b ∈ l, b < 256) : List.foldl crc32UpdateByte c l < 2 ^ 32 := by
  induction l generalizing c with
  | nil => simpa using hc
  | cons b l ih =>
    rw [List.foldl_cons]
    exact ih _ (crc32UpdateByte_lt c b hc (hl b (by simp))) fun x hx => hl x (by simp [hx])

theorem crc32_lt (l : List Nat) (hl : ∀ b ∈ l, b < 256) : crc32 l < 2 ^ 32 := by
  unfold crc32
  exact Nat.xor_lt_two_pow (foldl_crc32_lt l _ (by norm_num) hl) (by norm_num)

theorem xor_ne_of_ne_zero {a t : Nat} (ht : t ≠ 0) : a ^^^ t ≠ a := by
  intro h
  apply ht
  have h2 : a ^^^ (a ^^^ t) = a ^^^ a := by rw [h]
  rwa [← Nat.xor_assoc, Nat.xor_self, Nat.zero_xor] at h2

theorem foldl_crc32_set_ne (l : List Nat) (i e c : Nat)
    (hi : i < l.length) (he : e ≠ 0) (helt : e < 2 ^ 32) :
    List.foldl crc32UpdateByte c (l.set i (l.getD i 0 ^^^ e)) ≠
      List.foldl crc32UpdateByte c l := by
  induction l generalizing i c with
  | nil => simp at hi
  | cons b l ih =>
    cases i with
    | zero =>
      simp only [List.set_cons_zero, List.getD_cons_zero, List.foldl_cons]
      rw [show crc32UpdateByte c (b ^^^ e) = crc32UpdateByte c b ^^^ crc32Step1^[8] e by
            unfold crc32UpdateByte
            rw [← Nat.xor_assoc, crc32Iter_linear],
        foldl_crc32_xor, ← Function.iterate_add_apply]
      exact xor_ne_of_ne_zero (crc32Iter_ne_zero _ e helt he)
    | succ i =>
      simp only [List.set_cons_succ, List.getD_cons_succ, List.foldl_cons]
      exact ih i (crc32UpdateByte c b) (by simpa using hi)

theorem crc32_set_ne (l : List Nat) (i e : Nat)
    (hi : i < l.length) (he : e ≠ 0) (helt : e < 2 ^ 32) :
    crc32 (l.set i (l.getD i 0 ^^^ e)) ≠ crc32 l := by
  unfold crc32
  intro h
  apply foldl_crc32_set_ne l i e 0xFFFFFFFF hi he helt
  have := congrArg (fun x => x ^^^ 0xFFFFFFFF) h
  simpa [Nat.xor_assoc] using this

/-! ### Big-endian u32 and record decomposition lemmas -/

theorem length_u32ToBE (n : Nat) : (u32ToBE n).length = 4 := rfl

theorem mem_u32ToBE_lt (n b : Nat) (h : b ∈ u32ToBE n) : b < 256 := by
  simp [u32ToBE] at h
  rcases h with h | h | h | h <;> omega

theorem u32FromBE_u32ToBE (n : Nat) :
    u32FromBE ((u32ToBE n).getD 0 0) ((u32ToBE n).getD 1 0) ((u32ToBE n).getD 2 0)
      ((u32ToBE n).getD 3 0) = n % 2 ^ 32 := by
  simp only [u32ToBE, u32FromBE, List.getD_cons_zero, List.getD_cons_succ]
  omega

theorem getD_take (l : List Nat) (m n : Nat) (h : n < m) :
    (l.take m).getD n 0 = l.getD n 0 := by
  simp [List.getD_eq_getD_get?, List.get?_eq_getElem?, List.getElem?_take, h]

theorem alpha_lt_256 (b : Nat) (h : isAsciiAlphabetic b = true) : b < 256 := by
  simp [isAsciiAlphabetic, isAsciiUppercase, isAsciiLowercase] at h
  omega

theorem lowercase_not_uppercase (b : Nat) (h : isAsciiLowercase b = true) :
    isAsciiUppercase b = false := by
  simp [isAsciiLowercase] at h
  simp [isAsciiUppercase]
  omega

theorem dataLen_record (L : Nat) (tb rest : List Nat) :
    dataLen (u32ToBE L ++ (tb ++ rest)) = L % 2 ^ 32 := by
  unfold dataLen
  rw [List.getD_append _ _ _ 0 (by rw [length_u32ToBE]; omega),
    List.getD_append _ _ _ 1 (by rw [length_u32ToBE]; omega),
    List.getD_append _ _ _ 2 (by rw [length_u32ToBE]; omega),
    List.getD_append _ _ _ 3 (by rw [length_u32ToBE]; omega)]
  exact u32FromBE_u32ToBE L

theorem getD_record_type (L : Nat) (tb rest : List Nat) (k : Nat) (hk : k < 4)
    (htb : tb.length = 4) :
    (u32ToBE L ++ (tb ++ rest)).getD (4 + k) 0 = tb.getD k 0 := by
  rw [List.getD_append_right _ _ _ _ (by rw [length_u32ToBE]; omega), length_u32ToBE,
    show 4 + k - 4 = k by omega]
  exact List.getD_append _ _ _ _ (by omega)

theorem drop8_record (L : Nat) (tb rest : List Nat) (htb : tb.length = 4) :
    (u32ToBE L ++ (tb ++ rest)).drop 8 = rest := by
  rw [← List.append_assoc,
    show (8 : Nat) = (u32ToBE L ++ tb).length by simp [length_u32ToBE, htb]]
  exact List.drop_left _ _

theorem length_record (L : Nat) (tb rest : List Nat) (htb : tb.length = 4) :
    (u32ToBE L ++ (tb ++ rest)).length = 8 + rest.length := by
  simp [length_u32ToBE, htb]
  omega

theorem parsedData_record (L : Nat) (tb d tail2 : List Nat) (htb : tb.length = 4)
    (hdl : d.length = L) (hL : L < 2 ^ 32) :
    parsedData (u32ToBE L ++ (tb ++ (d ++ tail2))) = d := by
  unfold parsedData
  rw [drop8_record L tb _ htb, dataLen_record, Nat.mod_eq_of_lt hL, ← hdl,
    List.take_left]

theorem getD_record_tail (L : Nat) (tb d tail2 : List Nat) (htb : tb.length = 4)
    (hdl : d.length = L) (m k : Nat) (hm : m = 8 + L + k) :
    (u32ToBE L ++ (tb ++ (d ++ tail2))).getD m 0 = tail2.getD k 0 := by
  rw [← List.append_assoc, ← List.append_assoc]
  rw [List.getD_append_right _ _ _ _ (by simp [length_u32ToBE, htb, hdl]; omega)]
  simp only [List.length_append, length_u32ToBE, htb, hdl]
  rw [show m - (4 + 4 + L) = k by omega]

theorem storedCrc_record (L S : Nat) (tb d extra : List Nat) (htb : tb.length = 4)
    (hdl : d.length = L) (hL : L < 2 ^ 32) :
    storedCrc (u32ToBE L ++ (tb ++ (d ++ (u32ToBE S ++ extra)))) = S % 2 ^ 32 := by
  unfold storedCrc
  rw [dataLen_record, Nat.mod_eq_of_lt hL]
  rw [getD_record_tail L tb d _ htb hdl (8 + L) 0 (by omega),
    getD_record_tail L tb d _ htb hdl (8 + L + 1) 1 (by omega),
    getD_record_tail L tb d _ htb hdl (8 + L + 2) 2 (by omega),
    getD_record_tail L tb d _ htb hdl (8 + L + 3) 3 (by omega)]
  rw [List.getD_append _ _ _ 0 (by rw [length_u32ToBE]; omega),
    List.getD_append _ _ _ 1 (by rw [length_u32ToBE]; omega),
    List.getD_append _ _ _ 2 (by rw [length_u32ToBE]; omega),
    List.getD_append _ _ _ 3 (by rw [length_u32ToBE]; omega)]
  exact u32FromBE_u32ToBE S

/-! ### Evaluation lemmas for `Chunk.try_from` -/

theorem chunkType_try_from_of_alpha (b0 b1 b2 b3 : Nat)
    (h : (isAsciiAlphabetic b0 && isAsciiAlphabetic b1 &&
          isAsciiAlphabetic b2 && isAsciiAlphabetic b3) = true) :
    ChunkType.try_from b0 b1 b2 b3 = Except.ok ⟨b0, b1, b2, b3⟩ := by
  unfold ChunkType.try_from
  rw [if_pos h]

theorem chunkType_try_from_of_not_alpha (b0 b1 b2 b3 : Nat)
    (h : (isAsciiAlphabetic b0 && isAsciiAlphabetic b1 &&
          isAsciiAlphabetic b2 && isAsciiAlphabetic b3) = false) :
    ChunkType.try_from b0 b1 b2 b3 = Except.error PngError.chunkTypeNotAlphabetic := by
  unfold ChunkType.try_from
  rw [if_neg (by simp [h])]

theorem try_from_short (bs : List Nat) (h : bs.length < 8) :
    Chunk.try_from bs = ParseResult.err PngError.notEnoughBytes := by
  unfold Chunk.try_from
  rw [if_pos h]

theorem try_from_of_not_alpha (bs : List Nat) (h8 : 8 ≤ bs.length)
    (halpha : (isAsciiAlphabetic (bs.getD 4 0) && isAsciiAlphabetic (bs.getD 5 0) &&
               isAsciiAlphabetic (bs.getD 6 0) && isAsciiAlphabetic (bs.getD 7 0)) = false) :
    Chunk.try_from bs = ParseResult.err PngError.chunkTypeNotAlphabetic := by
  simp only [Chunk.try_from, chunkType_try_from_of_not_alpha _ _ _ _ halpha]
  rw [if_neg (by omega : ¬ bs.length < 8)]

theorem try_from_of_invalid (bs : List Nat) (h8 : 8 ≤ bs.length)
    (halpha : (isAsciiAlphabetic (bs.getD 4 0) && isAsciiAlphabetic (bs.getD 5 0) &&
               isAsciiAlphabetic (bs.getD 6 0) && isAsciiAlphabetic (bs.getD 7 0)) = true)
    (hupper : isAsciiUppercase (bs.getD 6 0) = false) :
    Chunk.try_from bs = ParseResult.err
      (PngError.invalidChunkType (bs.getD 4 0) (bs.getD 5 0) (bs.getD 6 0) (bs.getD 7 0)) := by
  have hv : ChunkType.is_valid ⟨bs.getD 4 0, bs.getD 5 0, bs.getD 6 0, bs.getD 7 0⟩ = false := by
    show ((isAsciiAlphabetic (bs.getD 4 0) && isAsciiAlphabetic (bs.getD 5 0) &&
           isAsciiAlphabetic (bs.getD 6 0) && isAsciiAlphabetic (bs.getD 7 0)) &&
          isAsciiUppercase (bs.getD 6 0)) = false
    rw [hupper, Bool.and_false]
  have hnv : ¬ (ChunkType.is_valid ⟨bs.getD 4 0, bs.getD 5 0, bs.getD 6 0, bs.getD 7 0⟩ = true) := by
    rw [hv]
    decide
  simp only [Chunk.try_from, chunkType_try_from_of_alpha _ _ _ _ halpha]
  rw [if_neg (by omega : ¬ bs.length < 8), if_pos hnv]

theorem try_from_oob (bs : List Nat) (h8 : 8 ≤ bs.length)
    (halpha : (isAsciiAlphabetic (bs.getD 4 0) && isAsciiAlphabetic (bs.getD 5 0) &&
               isAsciiAlphabetic (bs.getD 6 0) && isAsciiAlphabetic (bs.getD 7 0)) = true)
    (hupper : isAsciiUppercase (bs.getD 6 0) = true)
    (hoob : bs.length < 8 + dataLen bs + 4) :
    Chunk.try_from bs = ParseResult.indexOutOfBounds := by
  have hv : ChunkType.is_valid ⟨bs.getD 4 0, bs.getD 5 0, bs.getD 6 0, bs.getD 7 0⟩ = true := by
    show ((isAsciiAlphabetic (bs.getD 4 0) && isAsciiAlphabetic (bs.getD 5 0) &&
           isAsciiAlphabetic (bs.getD 6 0) && isAsciiAlphabetic (bs.getD 7 0)) &&
          isAsciiUppercase (bs.getD 6 0)) = true
    rw [halpha, hupper]
    decide
  have hnv : ¬ ¬ (ChunkType.is_valid ⟨bs.getD 4 0, bs.getD 5 0, bs.getD 6 0, bs.getD 7 0⟩ = true) := by
    rw [hv]
    decide
  simp only [Chunk.try_from, chunkType_try_from_of_alpha _ _ _ _ halpha]
  rw [if_neg (by omega : ¬ bs.length < 8), if_neg hnv]
  by_cases h2 : bs.length < 8 + dataLen bs
  · rw [if_pos h2]
  · rw [if_neg h2, if_pos (by omega : bs.length < 8 + dataLen bs + 4)]

theorem try_from_of_valid (bs : List Nat)
    (hlen : 8 + dataLen bs + 4 ≤ bs.length)
    (halpha : (isAsciiAlphabetic (bs.getD 4 0) && isAsciiAlphabetic (bs.getD 5 0) &&
               isAsciiAlphabetic (bs.getD 6 0) && isAsciiAlphabetic (bs.getD 7 0)) = true)
    (hupper : isAsciiUppercase (bs.getD 6 0) = true) :
    Chunk.try_from bs =
      if Chunk.crc ⟨⟨bs.getD 4 0, bs.getD 5 0, bs.getD 6 0, bs.getD 7 0⟩, parsedData bs⟩ = storedCrc bs
      then ParseResult.ok ⟨⟨bs.getD 4 0, bs.getD 5 0, bs.getD 6 0, bs.getD 7 0⟩, parsedData bs⟩
      else ParseResult.err (PngError.crcMismatch
        (Chunk.crc ⟨⟨bs.getD 4 0, bs.getD 5 0, bs.getD 6 0, bs.getD 7 0⟩, parsedData bs⟩)
        (storedCrc bs)) := by
  have hv : ChunkType.is_valid ⟨bs.getD 4 0, bs.getD 5 0, bs.getD 6 0, bs.getD 7 0⟩ = true := by
    show ((isAsciiAlphabetic (bs.getD 4 0) && isAsciiAlphabetic (bs.getD 5 0) &&
           isAsciiAlphabetic (bs.getD 6 0) && isAsciiAlphabetic (bs.getD 7 0)) &&
          isAsciiUppercase (bs.getD 6 0)) = true
    rw [halpha, hupper]
    decide
  have hnv : ¬ ¬ (ChunkType.is_valid ⟨bs.getD 4 0, bs.getD 5 0, bs.getD 6 0, bs.getD 7 0⟩ = true) := by
    rw [hv]
    decide
  simp only [Chunk.try_from, chunkType_try_from_of_alpha _ _ _ _ halpha]
  rw [if_neg (by omega : ¬ bs.length < 8), if_neg hnv,
    if_neg (by omega : ¬ bs.length < 8 + dataLen bs),
    if_neg (by omega : ¬ bs.length < 8 + dataLen bs + 4)]
  by_cases hc : Chunk.crc ⟨⟨bs.getD 4 0, bs.getD 5 0, bs.getD 6 0, bs.getD 7 0⟩, parsedData bs⟩ =
      storedCrc bs
  · rw [if_pos hc]
    exact if_neg (not_not_intro hc)
  · rw [if_neg hc]
    exact if_pos hc

theorem try_from_ok_inversion (bs : List Nat) (c : Chunk)
    (h : Chunk.try_from bs = ParseResult.ok c) :
    8 + dataLen bs + 4 ≤ bs.length ∧
    (isAsciiAlphabetic (bs.getD 4 0) && isAsciiAlphabetic (bs.getD 5 0) &&
     isAsciiAlphabetic (bs.getD 6 0) && isAsciiAlphabetic (bs.getD 7 0)) = true ∧
    isAsciiUppercase (bs.getD 6 0) = true ∧
    c = ⟨⟨bs.getD 4 0, bs.getD 5 0, bs.getD 6 0, bs.getD 7 0⟩, parsedData bs⟩ ∧
    Chunk.crc c = storedCrc bs := by
  by_cases h8 : bs.length < 8
  · rw [try_from_short bs h8] at h
    simp at h
  by_cases halpha : (isAsciiAlphabetic (bs.getD 4 0) && isAsciiAlphabetic (bs.getD 5 0) &&
      isAsciiAlphabetic (bs.getD 6 0) && isAsciiAlphabetic (bs.getD 7 0)) = true
  case neg =>
    rw [try_from_of_not_alpha bs (by omega) (by simpa using halpha)] at h
    simp at h
  by_cases hupper : isAsciiUppercase (bs.getD 6 0) = true
  case neg =>
    rw [try_from_of_invalid bs (by omega) halpha (by simpa using hupper)] at h
    simp at h
  by_cases hoob : bs.length < 8 + dataLen bs + 4
  · rw [try_from_oob bs (by omega) halpha hupper hoob] at h
    simp at h
  rw [try_from_of_valid bs (by omega) halpha hupper] at h
  by_cases hc : Chunk.crc ⟨⟨bs.getD 4 0, bs.getD 5 0, bs.getD 6 0, bs.getD 7 0⟩, parsedData bs⟩ =
      storedCrc bs
  · rw [if_pos hc] at h
    have hceq : c = ⟨⟨bs.getD 4 0, bs.getD 5 0, bs.getD 6 0, bs.getD 7 0⟩, parsedData bs⟩ := by
      cases h
      rfl
    exact ⟨by omega, halpha, hupper, hceq, by rw [hceq]; exact hc⟩
  · rw [if_neg hc] at h
    simp at h

/-! ### Decoding structured records -/

theorem getD_record_type2 (L : Nat) (tb rest : List Nat) (m k : Nat) (hk : k < 4)
    (htb : tb.length = 4) (hm : m = 4 + k) :
    (u32ToBE L ++ (tb ++ rest)).getD m 0 = tb.getD k 0 := by
  subst hm
  exact getD_record_type L tb rest k hk htb

theorem try_from_record (b0 b1 b2 b3 : Nat) (d extra : List Nat) (S : Nat)
    (hL : d.length < 2 ^ 32) (hS : S < 2 ^ 32)
    (halpha : (isAsciiAlphabetic b0 && isAsciiAlphabetic b1 &&
               isAsciiAlphabetic b2 && isAsciiAlphabetic b3) = true)
    (hupper : isAsciiUppercase b2 = true) :
    Chunk.try_from (u32ToBE d.length ++ ([b0, b1, b2, b3] ++ (d ++ (u32ToBE S ++ extra)))) =
      if Chunk.crc ⟨⟨b0, b1, b2, b3⟩, d⟩ = S then ParseResult.ok ⟨⟨b0, b1, b2, b3⟩, d⟩
      else ParseResult.err (PngError.crcMismatch (Chunk.crc ⟨⟨b0, b1, b2, b3⟩, d⟩) S) := by
  have htb : ([b0, b1, b2, b3] : List Nat).length = 4 := rfl
  have hdl : dataLen (u32ToBE d.length ++ ([b0, b1, b2, b3] ++ (d ++ (u32ToBE S ++ extra)))) =
      d.length := by
    rw [dataLen_record]
    exact Nat.mod_eq_of_lt hL
  have hg4 : (u32ToBE d.length ++ ([b0, b1, b2, b3] ++ (d ++ (u32ToBE S ++ extra)))).getD 4 0 = b0 :=
    getD_record_type2 _ _ _ 4 0 (by omega) htb (by omega)
  have hg5 : (u32ToBE d.length ++ ([b0, b1, b2, b3] ++ (d ++ (u32ToBE S ++ extra)))).getD 5 0 = b1 :=
    getD_record_type2 _ _ _ 5 1 (by omega) htb (by omega)
  have hg6 : (u32ToBE d.length ++ ([b0, b1, b2, b3] ++ (d ++ (u32ToBE S ++ extra)))).getD 6 0 = b2 :=
    getD_record_type2 _ _ _ 6 2 (by omega) htb (by omega)
  have hg7 : (u32ToBE d.length ++ ([b0, b1, b2, b3] ++ (d ++ (u32ToBE S ++ extra)))).getD 7 0 = b3 :=
    getD_record_type2 _ _ _ 7 3 (by omega) htb (by omega)
  have hpd : parsedData (u32ToBE d.length ++ ([b0, b1, b2, b3] ++ (d ++ (u32ToBE S ++ extra)))) = d :=
    parsedData_record d.length _ d _ htb rfl hL
  have hsc : storedCrc (u32ToBE d.length ++ ([b0, b1, b2, b3] ++ (d ++ (u32ToBE S ++ extra)))) = S := by
    rw [storedCrc_record d.length S _ d extra htb rfl hL]
    exact Nat.mod_eq_of_lt hS
  have hlength : (u32ToBE d.length ++ ([b0, b1, b2, b3] ++ (d ++ (u32ToBE S ++ extra)))).length =
      8 + d.length + 4 + extra.length := by
    simp [length_u32ToBE]
    omega
  rw [try_from_of_valid _ (by omega) (by rw [hg4, hg5, hg6, hg7]; exact halpha)
    (by rw [hg6]; exact hupper)]
  rw [hg4, hg5, hg6, hg7, hpd, hsc]

theorem try_from_as_bytes (t : ChunkType) (d extra : List Nat)
    (halpha : (isAsciiAlphabetic t.b0 && isAsciiAlphabetic t.b1 &&
               isAsciiAlphabetic t.b2 && isAsciiAlphabetic t.b3) = true)
    (hupper : isAsciiUppercase t.b2 = true)
    (hbytes : ∀ b ∈ d, b < 256) (hlen : d.length < 2 ^ 32) :
    Chunk.try_from (Chunk.as_bytes ⟨t, d⟩ ++ extra) = ParseResult.ok ⟨t, d⟩ := by
  obtain ⟨b0, b1, b2, b3⟩ := t
  have halpha2 := halpha
  rw [Bool.and_eq_true, Bool.and_eq_true, Bool.and_eq_true] at halpha2
  obtain ⟨⟨⟨h0, h1⟩, h2⟩, h3⟩ := halpha2
  have hall : ∀ b ∈ ChunkType.bytes ⟨b0, b1, b2, b3⟩ ++ d, b < 256 := by
    intro b hb
    simp [ChunkType.bytes] at hb
    rcases hb with hb | hb | hb | hb | hb
    · subst hb; exact alpha_lt_256 _ h0
    · subst hb; exact alpha_lt_256 _ h1
    · subst hb; exact alpha_lt_256 _ h2
    · subst hb; exact alpha_lt_256 _ h3
    · exact hbytes b hb
  have hS : Chunk.crc ⟨⟨b0, b1, b2, b3⟩, d⟩ < 2 ^ 32 := crc32_lt _ hall
  have heq : Chunk.as_bytes ⟨⟨b0, b1, b2, b3⟩, d⟩ ++ extra =
      u32ToBE d.length ++ ([b0, b1, b2, b3] ++
        (d ++ (u32ToBE (Chunk.crc ⟨⟨b0, b1, b2, b3⟩, d⟩) ++ extra))) := by
    simp [Chunk.as_bytes, ChunkType.bytes, Chunk.length]
    rw [Nat.mod_eq_of_lt (by omega)]
  rw [heq, try_from_record b0 b1 b2 b3 d extra _ hlen hS halpha hupper, if_pos rfl]

/-! ### Generalized record lemmas and single-bit flips -/

/-- Flip bit `j` of the byte at index `p` of the list. -/
def flipBit (bs : List Nat) (p j : Nat) : List Nat := bs.set p (bs.getD p 0 ^^^ 2 ^ j)

theorem storedCrc_record_gen (L : Nat) (tb d cb extra : List Nat) (htb : tb.length = 4)
    (hdl : d.length = L) (hL : L < 2 ^ 32) (hcb : cb.length = 4) :
    storedCrc (u32ToBE L ++ (tb ++ (d ++ (cb ++ extra)))) =
      u32FromBE (cb.getD 0 0) (cb.getD 1 0) (cb.getD 2 0) (cb.getD 3 0) := by
  unfold storedCrc
  rw [dataLen_record, Nat.mod_eq_of_lt hL]
  rw [getD_record_tail L tb d _ htb hdl (8 + L) 0 (by omega),
    getD_record_tail L tb d _ htb hdl (8 + L + 1) 1 (by omega),
    getD_record_tail L tb d _ htb hdl (8 + L + 2) 2 (by omega),
    getD_record_tail L tb d _ htb hdl (8 + L + 3) 3 (by omega)]
  rw [List.getD_append _ _ _ 0 (by omega), List.getD_append _ _ _ 1 (by omega),
    List.getD_append _ _ _ 2 (by omega), List.getD_append _ _ _ 3 (by omega)]

theorem try_from_record_gen (c0 c1 c2 c3 : Nat) (L : Nat) (dd cb extra : List Nat)
    (hdl : dd.length = L) (hL : L < 2 ^ 32) (hcb : cb.length = 4)
    (halpha : (isAsciiAlphabetic c0 && isAsciiAlphabetic c1 &&
               isAsciiAlphabetic c2 && isAsciiAlphabetic c3) = true)
    (hupper : isAsciiUppercase c2 = true) :
    Chunk.try_from (u32ToBE L ++ ([c0, c1, c2, c3] ++ (dd ++ (cb ++ extra)))) =
      if Chunk.crc ⟨⟨c0, c1, c2, c3⟩, dd⟩ =
          u32FromBE (cb.getD 0 0) (cb.getD 1 0) (cb.getD 2 0) (cb.getD 3 0)
      then ParseResult.ok ⟨⟨c0, c1, c2, c3⟩, dd⟩
      else ParseResult.err (PngError.crcMismatch (Chunk.crc ⟨⟨c0, c1, c2, c3⟩, dd⟩)
        (u32FromBE (cb.getD 0 0) (cb.getD 1 0) (cb.getD 2 0) (cb.getD 3 0))) := by
  have htb : ([c0, c1, c2, c3] : List Nat).length = 4 := rfl
  have hdL : dataLen (u32ToBE L ++ ([c0, c1, c2, c3] ++ (dd ++ (cb ++ extra)))) = L := by
    rw [dataLen_record]
    exact Nat.mod_eq_of_lt hL
  have hg4 : (u32ToBE L ++ ([c0, c1, c2, c3] ++ (dd ++ (cb ++ extra)))).getD 4 0 = c0 :=
    getD_record_type2 _ _ _ 4 0 (by omega) htb (by omega)
  have hg5 : (u32ToBE L ++ ([c0, c1, c2, c3] ++ (dd ++ (cb ++ extra)))).getD 5 0 = c1 :=
    getD_record_type2 _ _ _ 5 1 (by omega) htb (by omega)
  have hg6 : (u32ToBE L ++ ([c0, c1, c2, c3] ++ (dd ++ (cb ++ extra)))).getD 6 0 = c2 :=
    getD_record_type2 _ _ _ 6 2 (by omega) htb (by omega)
  have hg7 : (u32ToBE L ++ ([c0, c1, c2, c3] ++ (dd ++ (cb ++ extra)))).getD 7 0 = c3 :=
    getD_record_type2 _ _ _ 7 3 (by omega) htb (by omega)
  have hpd : parsedData (u32ToBE L ++ ([c0, c1, c2, c3] ++ (dd ++ (cb ++ extra)))) = dd :=
    parsedData_record L _ dd _ htb hdl hL
  have hsc : storedCrc (u32ToBE L ++ ([c0, c1, c2, c3] ++ (dd ++ (cb ++ extra)))) =
      u32FromBE (cb.getD 0 0) (cb.getD 1 0) (cb.getD 2 0) (cb.getD 3 0) :=
    storedCrc_record_gen L _ dd cb extra htb hdl hL hcb
  have hlength : (u32ToBE L ++ ([c0, c1, c2, c3] ++ (dd ++ (cb ++ extra)))).length =
      8 + L + 4 + extra.length := by
    simp [length_u32ToBE, hdl, hcb]
    omega
  rw [try_from_of_valid _ (by omega) (by rw [hg4, hg5, hg6, hg7]; exact halpha)
    (by rw [hg6]; exact hupper)]
  rw [hg4, hg5, hg6, hg7, hpd, hsc]

theorem try_from_record_cases (c0 c1 c2 c3 : Nat) (L : Nat) (dd cb extra : List Nat)
    (hdl : dd.length = L) (hL : L < 2 ^ 32) (hcb : cb.length = 4)
    (hcrc : Chunk.crc ⟨⟨c0, c1, c2, c3⟩, dd⟩ ≠
      u32FromBE (cb.getD 0 0) (cb.getD 1 0) (cb.getD 2 0) (cb.getD 3 0)) :
    ∃ e, Chunk.try_from (u32ToBE L ++ ([c0, c1, c2, c3] ++ (dd ++ (cb ++ extra)))) =
      ParseResult.err e := by
  have htb : ([c0, c1, c2, c3] : List Nat).length = 4 := rfl
  have hg4 : (u32ToBE L ++ ([c0, c1, c2, c3] ++ (dd ++ (cb ++ extra)))).getD 4 0 = c0 :=
    getD_record_type2 _ _ _ 4 0 (by omega) htb (by omega)
  have hg5 : (u32ToBE L ++ ([c0, c1, c2, c3] ++ (dd ++ (cb ++ extra)))).getD 5 0 = c1 :=
    getD_record_type2 _ _ _ 5 1 (by omega) htb (by omega)
  have hg6 : (u32ToBE L ++ ([c0, c1, c2, c3] ++ (dd ++ (cb ++ extra)))).getD 6 0 = c2 :=
    getD_record_type2 _ _ _ 6 2 (by omega) htb (by omega)
  have hg7 : (u32ToBE L ++ ([c0, c1, c2, c3] ++ (dd ++ (cb ++ extra)))).getD 7 0 = c3 :=
    getD_record_type2 _ _ _ 7 3 (by omega) htb (by omega)
  have hlength : (u32ToBE L ++ ([c0, c1, c2, c3] ++ (dd ++ (cb ++ extra)))).length =
      8 + L + 4 + extra.length := by
    simp [length_u32ToBE, hdl, hcb]
    omega
  by_cases halpha : (isAsciiAlphabetic c0 && isAsciiAlphabetic c1 &&
      isAsciiAlphabetic c2 && isAsciiAlphabetic c3) = true
  · by_cases hupper : isAsciiUppercase c2 = true
    · refine ⟨PngError.crcMismatch (Chunk.crc ⟨⟨c0, c1, c2, c3⟩, dd⟩)
        (u32FromBE (cb.getD 0 0) (cb.getD 1 0) (cb.getD 2 0) (cb.getD 3 0)), ?_⟩
      rw [try_from_record_gen c0 c1 c2 c3 L dd cb extra hdl hL hcb halpha hupper, if_neg hcrc]
    · refine ⟨PngError.invalidChunkType c0 c1 c2 c3, ?_⟩
      have hres := try_from_of_invalid _ (by rw [hlength]; omega)
        (by rw [hg4, hg5, hg6, hg7]; exact halpha) (by rw [hg6]; simpa using hupper)
      rw [hres, hg4, hg5, hg6, hg7]
  · refine ⟨PngError.chunkTypeNotAlphabetic, ?_⟩
    exact try_from_of_not_alpha _ (by rw [hlength]; omega)
      (by rw [hg4, hg5, hg6, hg7]; simpa using halpha)

theorem list_eq_four (tb : List Nat) (htb : tb.length = 4) :
    tb = [tb.getD 0 0, tb.getD 1 0, tb.getD 2 0, tb.getD 3 0] := by
  rcases tb with _ | ⟨a, tb⟩
  · simp at htb
  rcases tb with _ | ⟨b, tb⟩
  · simp at htb
  rcases tb with _ | ⟨c, tb⟩
  · simp at htb
  rcases tb with _ | ⟨e, tb⟩
  · simp at htb
  rcases tb with _ | ⟨f, tb⟩
  · rfl
  · simp at htb

theorem as_bytes_structure (b0 b1 b2 b3 : Nat) (d extra : List Nat) (hlen : d.length < 2 ^ 32) :
    Chunk.as_bytes ⟨⟨b0, b1, b2, b3⟩, d⟩ ++ extra =
      u32ToBE d.length ++ ([b0, b1, b2, b3] ++
        (d ++ (u32ToBE (Chunk.crc ⟨⟨b0, b1, b2, b3⟩, d⟩) ++ extra))) := by
  simp [Chunk.as_bytes, ChunkType.bytes, Chunk.length]
  rw [Nat.mod_eq_of_lt (by omega)]

theorem as_bytes_structure0 (b0 b1 b2 b3 : Nat) (d : List Nat) (hlen : d.length < 2 ^ 32) :
    Chunk.as_bytes ⟨⟨b0, b1, b2, b3⟩, d⟩ =
      u32ToBE d.length ++ ([b0, b1, b2, b3] ++
        (d ++ (u32ToBE (Chunk.crc ⟨⟨b0, b1, b2, b3⟩, d⟩) ++ []))) :=
  (List.append_nil _).symm.trans (as_bytes_structure b0 b1 b2 b3 d [] hlen)

theorem getD_record_data (L : Nat) (tb d tail2 : List Nat) (htb : tb.length = 4)
    (m i : Nat) (hi : i < d.length) (hm : m = 8 + i) :
    (u32ToBE L ++ (tb ++ (d ++ tail2))).getD m 0 = d.getD i 0 := by
  subst hm
  rw [← List.append_assoc]
  rw [List.getD_append_right _ _ _ _
    (by simp only [List.length_append, length_u32ToBE, htb]; omega)]
  simp only [List.length_append, length_u32ToBE, htb]
  rw [show 8 + i - (4 + 4) = i from by omega]
  exact List.getD_append _ _ _ _ hi

theorem set_record_type (L : Nat) (tb rest : List Nat) (htb : tb.length = 4)
    (m k : Nat) (hk : k < 4) (hm : m = 4 + k) (v : Nat) :
    (u32ToBE L ++ (tb ++ rest)).set m v = u32ToBE L ++ (tb.set k v ++ rest) := by
  subst hm
  rw [List.set_append, if_neg (by rw [length_u32ToBE]; omega), length_u32ToBE,
    show 4 + k - 4 = k from by omega,
    List.set_append, if_pos (by omega)]

theorem set_record_data (L : Nat) (tb d tail2 : List Nat) (htb : tb.length = 4)
    (m i : Nat) (hi : i < d.length) (hm : m = 8 + i) (v : Nat) :
    (u32ToBE L ++ (tb ++ (d ++ tail2))).set m v = u32ToBE L ++ (tb ++ (d.set i v ++ tail2)) := by
  subst hm
  rw [List.set_append, if_neg (by rw [length_u32ToBE]; omega), length_u32ToBE,
    show 8 + i - 4 = 4 + i from by omega,
    List.set_append, if_neg (by omega), htb,
    show 4 + i - 4 = i from by omega,
    List.set_append, if_pos hi]

theorem set_record_tail (L : Nat) (tb d tail2 : List Nat) (htb : tb.length = 4)
    (hdl : d.length = L) (m k : Nat) (hm : m = 8 + L + k) (v : Nat) :
    (u32ToBE L ++ (tb ++ (d ++ tail2))).set m v = u32ToBE L ++ (tb ++ (d ++ tail2.set k v)) := by
  subst hm
  rw [List.set_append, if_neg (by rw [length_u32ToBE]; omega), length_u32ToBE,
    List.set_append, if_neg (by omega), htb,
    List.set_append, if_neg (by omega), hdl,
    show 8 + L + k - 4 - 4 - L = k from by omega]

theorem chunk_crc_lt (b0 b1 b2 b3 : Nat) (d : List Nat)
    (halpha : (isAsciiAlphabetic b0 && isAsciiAlphabetic b1 &&
               isAsciiAlphabetic b2 && isAsciiAlphabetic b3) = true)
    (hbytes : ∀ b ∈ d, b < 256) :
    Chunk.crc ⟨⟨b0, b1, b2, b3⟩, d⟩ < 2 ^ 32 := by
  rw [Bool.and_eq_true, Bool.and_eq_true, Bool.and_eq_true] at halpha
  obtain ⟨⟨⟨h0, h1⟩, h2⟩, h3⟩ := halpha
  apply crc32_lt
  intro b hb
  simp [ChunkType.bytes] at hb
  rcases hb with hb | hb | hb | hb | hb
  · subst hb; exact alpha_lt_256 _ h0
  · subst hb; exact alpha_lt_256 _ h1
  · subst hb; exact alpha_lt_256 _ h2
  · subst hb; exact alpha_lt_256 _ h3
  · exact hbytes b hb

theorem two_pow_byte_lt (j : Nat) (hj : j < 8) : 2 ^ j < 256 := by
  have : (2 : Nat) ^ j ≤ 2 ^ 7 := Nat.pow_le_pow_right (by norm_num) (by omega)
  omega

theorem two_pow_ne_zero (j : Nat) : (2 : Nat) ^ j ≠ 0 :=
  (Nat.pos_pow_of_pos j (by norm_num)).ne.symm

theorem try_from_flip_data (b0 b1 b2 b3 : Nat) (d : List Nat)
    (halpha : (isAsciiAlphabetic b0 && isAsciiAlphabetic b1 &&
               isAsciiAlphabetic b2 && isAsciiAlphabetic b3) = true)
    (hupper : isAsciiUppercase b2 = true)
    (hbytes : ∀ b ∈ d, b < 256) (hlen : d.length < 2 ^ 32)
    (i j : Nat) (hi : i < d.length) (hj : j < 8) :
    Chunk.try_from (flipBit (Chunk.as_bytes ⟨⟨b0, b1, b2, b3⟩, d⟩) (8 + i) j) =
      ParseResult.err (PngError.crcMismatch
        (Chunk.crc ⟨⟨b0, b1, b2, b3⟩, d.set i (d.getD i 0 ^^^ 2 ^ j)⟩)
        (Chunk.crc ⟨⟨b0, b1, b2, b3⟩, d⟩)) := by
  have htb : ([b0, b1, b2, b3] : List Nat).length = 4 := rfl
  have hS : Chunk.crc ⟨⟨b0, b1, b2, b3⟩, d⟩ < 2 ^ 32 := chunk_crc_lt b0 b1 b2 b3 d halpha hbytes
  rw [as_bytes_structure0 b0 b1 b2 b3 d hlen]
  unfold flipBit
  rw [getD_record_data d.length _ d _ htb (8 + i) i hi rfl,
    set_record_data d.length _ d _ htb (8 + i) i hi rfl _]
  rw [try_from_record_gen b0 b1 b2 b3 d.length (d.set i (d.getD i 0 ^^^ 2 ^ j))
    (u32ToBE (Chunk.crc ⟨⟨b0, b1, b2, b3⟩, d⟩)) [] (by simp) hlen rfl halpha hupper]
  have hdig : u32FromBE ((u32ToBE (Chunk.crc ⟨⟨b0, b1, b2, b3⟩, d⟩)).getD 0 0)
      ((u32ToBE (Chunk.crc ⟨⟨b0, b1, b2, b3⟩, d⟩)).getD 1 0)
      ((u32ToBE (Chunk.crc ⟨⟨b0, b1, b2, b3⟩, d⟩)).getD 2 0)
      ((u32ToBE (Chunk.crc ⟨⟨b0, b1, b2, b3⟩, d⟩)).getD 3 0) =
      Chunk.crc ⟨⟨b0, b1, b2, b3⟩, d⟩ := by
    rw [u32FromBE_u32ToBE]
    exact Nat.mod_eq_of_lt hS
  rw [hdig]
  have hset2 : ([b0, b1, b2, b3] ++ d).set (4 + i) (([b0, b1, b2, b3] ++ d).getD (4 + i) 0 ^^^ 2 ^ j) =
      [b0, b1, b2, b3] ++ d.set i (d.getD i 0 ^^^ 2 ^ j) := by
    rw [List.getD_append_right _ _ _ _ (by simp), List.set_append, if_neg (by simp)]
    simp
  have hne : Chunk.crc ⟨⟨b0, b1, b2, b3⟩, d.set i (d.getD i 0 ^^^ 2 ^ j)⟩ ≠
      Chunk.crc ⟨⟨b0, b1, b2, b3⟩, d⟩ := by
    show crc32 ([b0, b1, b2, b3] ++ d.set i (d.getD i 0 ^^^ 2 ^ j)) ≠ crc32 ([b0, b1, b2, b3] ++ d)
    rw [← hset2]
    exact crc32_set_ne _ _ _ (by simp; omega) (two_pow_ne_zero j)
      (by have := two_pow_byte_lt j hj; omega)
  rw [if_neg hne]

theorem try_from_flip_type (b0 b1 b2 b3 : Nat) (d : List Nat)
    (halpha : (isAsciiAlphabetic b0 && isAsciiAlphabetic b1 &&
               isAsciiAlphabetic b2 && isAsciiAlphabetic b3) = true)
    (hupper : isAsciiUppercase b2 = true)
    (hbytes : ∀ b ∈ d, b < 256) (hlen : d.length < 2 ^ 32)
    (k j : Nat) (hk : k < 4) (hj : j < 8) :
    ∃ e, Chunk.try_from (flipBit (Chunk.as_bytes ⟨⟨b0, b1, b2, b3⟩, d⟩) (4 + k) j) =
      ParseResult.err e := by
  have htb : ([b0, b1, b2, b3] : List Nat).length = 4 := rfl
  have hS : Chunk.crc ⟨⟨b0, b1, b2, b3⟩, d⟩ < 2 ^ 32 := chunk_crc_lt b0 b1 b2 b3 d halpha hbytes
  rw [as_bytes_structure0 b0 b1 b2 b3 d hlen]
  unfold flipBit
  rw [getD_record_type2 d.length [b0, b1, b2, b3] _ (4 + k) k hk htb rfl,
    set_record_type d.length [b0, b1, b2, b3] _ htb (4 + k) k hk rfl _]
  have htb2 : (([b0, b1, b2, b3] : List Nat).set k
      (([b0, b1, b2, b3] : List Nat).getD k 0 ^^^ 2 ^ j)).length = 4 := by simp
  have hre := list_eq_four _ htb2
  rw [hre]
  have hdig : u32FromBE ((u32ToBE (Chunk.crc ⟨⟨b0, b1, b2, b3⟩, d⟩)).getD 0 0)
      ((u32ToBE (Chunk.crc ⟨⟨b0, b1, b2, b3⟩, d⟩)).getD 1 0)
      ((u32ToBE (Chunk.crc ⟨⟨b0, b1, b2, b3⟩, d⟩)).getD 2 0)
      ((u32ToBE (Chunk.crc ⟨⟨b0, b1, b2, b3⟩, d⟩)).getD 3 0) =
      Chunk.crc ⟨⟨b0, b1, b2, b3⟩, d⟩ := by
    rw [u32FromBE_u32ToBE]
    exact Nat.mod_eq_of_lt hS
  apply try_from_record_cases _ _ _ _ _ d (u32ToBE (Chunk.crc ⟨⟨b0, b1, b2, b3⟩, d⟩)) []
    rfl hlen rfl
  rw [hdig]
  have hset2 : ([b0, b1, b2, b3] ++ d).set k (([b0, b1, b2, b3] ++ d).getD k 0 ^^^ 2 ^ j) =
      (([b0, b1, b2, b3] : List Nat).set k
        (([b0, b1, b2, b3] : List Nat).getD k 0 ^^^ 2 ^ j)) ++ d := by
    rw [List.set_append, if_pos (by simp; omega), List.getD_append _ _ _ _ (by simp; omega)]
  show Chunk.crc ⟨⟨_, _, _, _⟩, d⟩ ≠ Chunk.crc ⟨⟨b0, b1, b2, b3⟩, d⟩
  show crc32 ([_, _, _, _] ++ d) ≠ crc32 ([b0, b1, b2, b3] ++ d)
  rw [← hre, ← hset2]
  exact crc32_set_ne _ _ _ (by simp; omega) (two_pow_ne_zero j)
    (by have := two_pow_byte_lt j hj; omega)

theorem try_from_flip_crc (b0 b1 b2 b3 : Nat) (d : List Nat)
    (halpha : (isAsciiAlphabetic b0 && isAsciiAlphabetic b1 &&
               isAsciiAlphabetic b2 && isAsciiAlphabetic b3) = true)
    (hupper : isAsciiUppercase b2 = true)
    (hbytes : ∀ b ∈ d, b < 256) (hlen : d.length < 2 ^ 32)
    (k j : Nat) (hk : k < 4) (hj : j < 8) :
    ∃ stored, Chunk.try_from (flipBit (Chunk.as_bytes ⟨⟨b0, b1, b2, b3⟩, d⟩) (8 + d.length + k) j) =
      ParseResult.err (PngError.crcMismatch (Chunk.crc ⟨⟨b0, b1, b2, b3⟩, d⟩) stored) ∧
      stored ≠ Chunk.crc ⟨⟨b0, b1, b2, b3⟩, d⟩ := by
  have htb : ([b0, b1, b2, b3] : List Nat).length = 4 := rfl
  have hS : Chunk.crc ⟨⟨b0, b1, b2, b3⟩, d⟩ < 2 ^ 32 := chunk_crc_lt b0 b1 b2 b3 d halpha hbytes
  rw [as_bytes_structure0 b0 b1 b2 b3 d hlen]
  unfold flipBit
  rw [getD_record_tail d.length [b0, b1, b2, b3] d _ htb rfl (8 + d.length + k) k rfl,
    set_record_tail d.length [b0, b1, b2, b3] d _ htb rfl (8 + d.length + k) k rfl _]
  rw [List.getD_append _ _ _ _ (by rw [length_u32ToBE]; omega)]
  have hsplit : ((u32ToBE (Chunk.crc ⟨⟨b0, b1, b2, b3⟩, d⟩) ++ ([] : List Nat)).set k
      ((u32ToBE (Chunk.crc ⟨⟨b0, b1, b2, b3⟩, d⟩)).getD k 0 ^^^ 2 ^ j)) =
      ((u32ToBE (Chunk.crc ⟨⟨b0, b1, b2, b3⟩, d⟩)).set k
      ((u32ToBE (Chunk.crc ⟨⟨b0, b1, b2, b3⟩, d⟩)).getD k 0 ^^^ 2 ^ j) ++ ([] : List Nat)) := by
    rw [List.set_append, if_pos (by rw [length_u32ToBE]; omega)]
  rw [hsplit]
  rw [try_from_record_gen b0 b1 b2 b3 d.length d
    ((u32ToBE (Chunk.crc ⟨⟨b0, b1, b2, b3⟩, d⟩)).set k
      ((u32ToBE (Chunk.crc ⟨⟨b0, b1, b2, b3⟩, d⟩)).getD k 0 ^^^ 2 ^ j)) []
    rfl hlen (by simp [length_u32ToBE]) halpha hupper]
  have hj2 : (2 : Nat) ^ j < 256 := two_pow_byte_lt j hj
  have hj0 : (2 : Nat) ^ j ≠ 0 := two_pow_ne_zero j
  have hne : u32FromBE
      (((u32ToBE (Chunk.crc ⟨⟨b0, b1, b2, b3⟩, d⟩)).set k
        ((u32ToBE (Chunk.crc ⟨⟨b0, b1, b2, b3⟩, d⟩)).getD k 0 ^^^ 2 ^ j)).getD 0 0)
      (((u32ToBE (Chunk.crc ⟨⟨b0, b1, b2, b3⟩, d⟩)).set k
        ((u32ToBE (Chunk.crc ⟨⟨b0, b1, b2, b3⟩, d⟩)).getD k 0 ^^^ 2 ^ j)).getD 1 0)
      (((u32ToBE (Chunk.crc ⟨⟨b0, b1, b2, b3⟩, d⟩)).set k
        ((u32ToBE (Chunk.crc ⟨⟨b0, b1, b2, b3⟩, d⟩)).getD k 0 ^^^ 2 ^ j)).getD 2 0)
      (((u32ToBE (Chunk.crc ⟨⟨b0, b1, b2, b3⟩, d⟩)).set k
        ((u32ToBE (Chunk.crc ⟨⟨b0, b1, b2, b3⟩, d⟩)).getD k 0 ^^^ 2 ^ j)).getD 3 0) ≠
      Chunk.crc ⟨⟨b0, b1, b2, b3⟩, d⟩ := by
    interval_cases k <;>
      (simp only [u32ToBE, List.set_cons_zero, List.set_cons_succ,
        List.getD_cons_zero, List.getD_cons_succ, u32FromBE]
       have hx := xor_ne_of_ne_zero (a := Chunk.crc ⟨⟨b0, b1, b2, b3⟩, d⟩ / 2 ^ 24 % 256) hj0
       have hx2 := xor_ne_of_ne_zero (a := Chunk.crc ⟨⟨b0, b1, b2, b3⟩, d⟩ / 2 ^ 16 % 256) hj0
       have hx3 := xor_ne_of_ne_zero (a := Chunk.crc ⟨⟨b0, b1, b2, b3⟩, d⟩ / 2 ^ 8 % 256) hj0
       have hx4 := xor_ne_of_ne_zero (a := Chunk.crc ⟨⟨b0, b1, b2, b3⟩, d⟩ % 256) hj0
       have hb1 : Chunk.crc ⟨⟨b0, b1, b2, b3⟩, d⟩ / 2 ^ 24 % 256 ^^^ 2 ^ j < 256 :=
         Nat.xor_lt_two_pow (n := 8) (by omega) (by omega)
       have hb2 : Chunk.crc ⟨⟨b0, b1, b2, b3⟩, d⟩ / 2 ^ 16 % 256 ^^^ 2 ^ j < 256 :=
         Nat.xor_lt_two_pow (n := 8) (by omega) (by omega)
       have hb3 : Chunk.crc ⟨⟨b0, b1, b2, b3⟩, d⟩ / 2 ^ 8 % 256 ^^^ 2 ^ j < 256 :=
         Nat.xor_lt_two_pow (n := 8) (by omega) (by omega)
       have hb4 : Chunk.crc ⟨⟨b0, b1, b2, b3⟩, d⟩ % 256 ^^^ 2 ^ j < 256 :=
         Nat.xor_lt_two_pow (n := 8) (by omega) (by omega)
       omega)
  refine ⟨_, ?_, hne⟩
  rw [if_neg (Ne.symm hne)]

/-! ### Decode depends only on the declared record prefix -/

theorem try_from_truncated (bs : List Nat) (c : Chunk)
    (h : Chunk.try_from bs = ParseResult.ok c) (extra : List Nat) :
    Chunk.try_from (bs.take (8 + dataLen bs + 4) ++ extra) = ParseResult.ok c := by
  obtain ⟨hlen, halpha, hupper, hc, hcrc⟩ := try_from_ok_inversion bs c h
  have hgd : ∀ i, i < 8 + dataLen bs + 4 →
      (bs.take (8 + dataLen bs + 4) ++ extra).getD i 0 = bs.getD i 0 := by
    intro i hi
    rw [List.getD_append _ _ _ _ (by rw [List.length_take]; omega), getD_take _ _ _ hi]
  have hg0 := hgd 0 (by omega)
  have hg1 := hgd 1 (by omega)
  have hg2 := hgd 2 (by omega)
  have hg3 := hgd 3 (by omega)
  have hdl : dataLen (bs.take (8 + dataLen bs + 4) ++ extra) = dataLen bs := by
    show u32FromBE ((bs.take (8 + dataLen bs + 4) ++ extra).getD 0 0)
      ((bs.take (8 + dataLen bs + 4) ++ extra).getD 1 0)
      ((bs.take (8 + dataLen bs + 4) ++ extra).getD 2 0)
      ((bs.take (8 + dataLen bs + 4) ++ extra).getD 3 0) = dataLen bs
    rw [hg0, hg1, hg2, hg3]
    rfl
  have hlen2 : (bs.take (8 + dataLen bs + 4) ++ extra).length =
      8 + dataLen bs + 4 + extra.length := by
    rw [List.length_append, List.length_take]
    omega
  have hpd : parsedData (bs.take (8 + dataLen bs + 4) ++ extra) = parsedData bs := by
    show ((bs.take (8 + dataLen bs + 4) ++ extra).drop 8).take
      (dataLen (bs.take (8 + dataLen bs + 4) ++ extra)) = parsedData bs
    rw [hdl]
    rw [List.drop_append_of_le_length (by rw [List.length_take]; omega)]
    rw [List.drop_take]
    rw [show 8 + dataLen bs + 4 - 8 = dataLen bs + 4 from by omega]
    rw [List.take_append_of_le_length (by rw [List.length_take, List.length_drop]; omega)]
    rw [List.take_take, show dataLen bs ⊓ (dataLen bs + 4) = dataLen bs from by omega]
    rfl
  have hsc : storedCrc (bs.take (8 + dataLen bs + 4) ++ extra) = storedCrc bs := by
    show u32FromBE
      ((bs.take (8 + dataLen bs + 4) ++ extra).getD
        (8 + dataLen (bs.take (8 + dataLen bs + 4) ++ extra)) 0)
      ((bs.take (8 + dataLen bs + 4) ++ extra).getD
        (8 + dataLen (bs.take (8 + dataLen bs + 4) ++ extra) + 1) 0)
      ((bs.take (8 + dataLen bs + 4) ++ extra).getD
        (8 + dataLen (bs.take (8 + dataLen bs + 4) ++ extra) + 2) 0)
      ((bs.take (8 + dataLen bs + 4) ++ extra).getD
        (8 + dataLen (bs.take (8 + dataLen bs + 4) ++ extra) + 3) 0) = storedCrc bs
    rw [hdl, hgd _ (by omega), hgd _ (by omega), hgd _ (by omega), hgd _ (by omega)]
    rfl
  rw [try_from_of_valid _ (by omega)
    (by rw [hgd 4 (by omega), hgd 5 (by omega), hgd 6 (by omega), hgd 7 (by omega)]; exact halpha)
    (by rw [hgd 6 (by omega)]; exact hupper)]
  rw [hgd 4 (by omega), hgd 5 (by omega), hgd 6 (by omega), hgd 7 (by omega), hpd, hsc]
  rw [← hc, if_pos hcrc]

/-! ### Container removal -/

theorem removeFirstChunk_none (t : List Nat) (cs : List Chunk)
    (h : ∀ c ∈ cs, c.chunk_type.bytes ≠ t) : removeFirstChunk t cs = none := by
  induction cs with
  | nil => rfl
  | cons c cs ih =>
    unfold removeFirstChunk
    rw [if_neg (h c (by simp)), ih fun c2 hc2 => h c2 (by simp [hc2])]

theorem removeFirstChunk_found (t : List Nat) (cs : List Chunk)
    (h : ∃ c ∈ cs, c.chunk_type.bytes = t) :
    ∃ pre c post, cs = pre ++ c :: post ∧ (∀ c2 ∈ pre, c2.chunk_type.bytes ≠ t) ∧
      c.chunk_type.bytes = t ∧ removeFirstChunk t cs = some (c, pre ++ post) := by
  induction cs with
  | nil => simp at h
  | cons c cs ih =>
    by_cases hc : c.chunk_type.bytes = t
    · refine ⟨[], c, cs, by simp, by simp, hc, ?_⟩
      unfold removeFirstChunk
      rw [if_pos hc]
      simp
    · obtain ⟨c2, hc2, hc2t⟩ := h
      rcases List.mem_cons.mp hc2 with hh | hh
      · exact absurd (hh ▸ hc2t) hc
      obtain ⟨pre, cf, post, hdecomp, hpre, hcf, hrm⟩ := ih ⟨c2, hh, hc2t⟩
      refine ⟨c :: pre, cf, post, by simp [hdecomp], ?_, hcf, ?_⟩
      · intro c3 hc3
        rcases List.mem_cons.mp hc3 with hh3 | hh3
        · exact hh3 ▸ hc
        · exact hpre c3 hh3
      · unfold removeFirstChunk
        rw [if_neg hc, hrm]
        rfl

theorem remove_by_type_found (p : Png) (t : List Nat)
    (h : ∃ c ∈ p.chunks, c.chunk_type.bytes = t) :
    ∃ pre c post, p.chunks = pre ++ c :: post ∧
      (∀ c2 ∈ pre, c2.chunk_type.bytes ≠ t) ∧ c.chunk_type.bytes = t ∧
      Png.remove_by_type p t = Except.ok (c, ⟨pre ++ post⟩) := by
  obtain ⟨pre, c, post, hdecomp, hpre, hc, hrm⟩ := removeFirstChunk_found t p.chunks h
  refine ⟨pre, c, post, hdecomp, hpre, hc, ?_⟩
  unfold Png.remove_by_type
  rw [hrm]

theorem remove_by_type_absent (p : Png) (t : List Nat)
    (h : ∀ c ∈ p.chunks, c.chunk_type.bytes ≠ t) :
    Png.remove_by_type p t = Except.error PngError.chunkNotFound := by
  unfold Png.remove_by_type
  rw [removeFirstChunk_none t p.chunks h]

theorem as_bytes_take4 (b0 b1 b2 b3 : Nat) (d : List Nat) :
    (Chunk.as_bytes ⟨⟨b0, b1, b2, b3⟩, d⟩).take 4 = u32ToBE (d.length % 2 ^ 32) := by
  have hstruct : Chunk.as_bytes ⟨⟨b0, b1, b2, b3⟩, d⟩ =
      u32ToBE (d.length % 2 ^ 32) ++ ([b0, b1, b2, b3] ++
        (d ++ u32ToBE (Chunk.crc ⟨⟨b0, b1, b2, b3⟩, d⟩))) := by
    simp [Chunk.as_bytes, ChunkType.bytes, Chunk.length]
  rw [hstruct, show (4 : Nat) = (u32ToBE (d.length % 2 ^ 32)).length from
    (length_u32ToBE _).symm, List.take_left]

theorem dataLen_as_bytes (b0 b1 b2 b3 : Nat) (d : List Nat) :
    dataLen (Chunk.as_bytes ⟨⟨b0, b1, b2, b3⟩, d⟩) = d.length % 2 ^ 32 := by
  have hstruct : Chunk.as_bytes ⟨⟨b0, b1, b2, b3⟩, d⟩ =
      u32ToBE (d.length % 2 ^ 32) ++ ([b0, b1, b2, b3] ++
        (d ++ u32ToBE (Chunk.crc ⟨⟨b0, b1, b2, b3⟩, d⟩))) := by
    simp [Chunk.as_bytes, ChunkType.bytes, Chunk.length]
  rw [hstruct, dataLen_record]
  omega

/-! ### Claim theorems -/

/-- C1 counterexample: the type bytes of "Rust" (82,117,115,116) are all ASCII
alphabetic, yet decoding the byte encoding of the chunk ⟨"Rust", []⟩ does not
succeed — it fails the `is_valid` gate with an invalid-chunk-type error, so the
round trip does not hold for every chunk with an alphabetic type. -/
theorem C1_counterexample :
    (isAsciiAlphabetic 82 && isAsciiAlphabetic 117 && isAsciiAlphabetic 115 &&
     isAsciiAlphabetic 116) = true ∧
    Chunk.try_from (Chunk.as_bytes ⟨⟨82, 117, 115, 116⟩, []⟩) =
      ParseResult.err (PngError.invalidChunkType 82 117 115 116) := by
  constructor
  · decide
  · decide

/-- C1 (amended): for every chunk whose 4 type bytes are ASCII alphabetic with
an uppercase third byte (reserved bit valid), and whose payload is a byte
sequence (values < 256) of length below 2^32, `Chunk::try_from` applied to
`Chunk::as_bytes` succeeds and returns the same chunk (same type bytes, same
payload; the recomputed CRC necessarily matches the stored one). -/
theorem C1_roundtrip_amended (b0 b1 b2 b3 : Nat) (d : List Nat)
    (halpha : (isAsciiAlphabetic b0 && isAsciiAlphabetic b1 &&
               isAsciiAlphabetic b2 && isAsciiAlphabetic b3) = true)
    (hupper : isAsciiUppercase b2 = true)
    (hbytes : ∀ b ∈ d, b < 256) (hlen : d.length < 2 ^ 32) :
    Chunk.try_from (Chunk.as_bytes ⟨⟨b0, b1, b2, b3⟩, d⟩) =
      ParseResult.ok ⟨⟨b0, b1, b2, b3⟩, d⟩ := by
  have h := try_from_as_bytes ⟨b0, b1, b2, b3⟩ d [] halpha hupper hbytes hlen
  simpa using h

/-- C1 witness: the round trip at the concrete chunk ⟨"RuSt", [104, 105]⟩. -/
theorem C1_roundtrip_witness :
    Chunk.try_from (Chunk.as_bytes ⟨⟨82, 117, 83, 116⟩, [104, 105]⟩) =
      ParseResult.ok ⟨⟨82, 117, 83, 116⟩, [104, 105]⟩ :=
  C1_roundtrip_amended 82 117 83 116 [104, 105] (by decide) (by decide) (by decide) (by decide)

/-- C2: a slice with fewer than 8 bytes fails with the truncated-header error,
as the claim says; but a slice long enough for the header and too short for
payload plus CRC makes `Chunk::try_from` panic (out-of-bounds slice indexing at
`bytes[8..8 + data_length]`, respectively `bytes[8 + data_length..8 +
data_length + 4]`) instead of returning the claimed truncated payload/crc
error. -/
theorem C2_truncation_behavior :
    Chunk.try_from [1, 2, 3] = ParseResult.err PngError.notEnoughBytes ∧
    Chunk.try_from [0, 0, 0, 1, 82, 117, 83, 116] = ParseResult.indexOutOfBounds ∧
    Chunk.try_from [0, 0, 0, 0, 82, 117, 83, 116] = ParseResult.indexOutOfBounds := by
  refine ⟨by decide, by decide, by decide⟩

/-- C3: a record whose 4 type bytes are all alphabetic but whose third byte is
lowercase is rejected by standalone chunk decode with the invalid-chunk-type
error (the full `is_valid` gate), while `ChunkType::try_from` on the same 4
bytes succeeds. -/
theorem C3_reserved_bit_gate (b0 b1 b2 b3 : Nat)
    (halpha : (isAsciiAlphabetic b0 && isAsciiAlphabetic b1 &&
               isAsciiAlphabetic b2 && isAsciiAlphabetic b3) = true)
    (hlower : isAsciiLowercase b2 = true) :
    ChunkType.try_from b0 b1 b2 b3 = Except.ok ⟨b0, b1, b2, b3⟩ ∧
    ∀ bs : List Nat, 8 ≤ bs.length →
      bs.getD 4 0 = b0 → bs.getD 5 0 = b1 → bs.getD 6 0 = b2 → bs.getD 7 0 = b3 →
      Chunk.try_from bs = ParseResult.err (PngError.invalidChunkType b0 b1 b2 b3) := by
  refine ⟨chunkType_try_from_of_alpha b0 b1 b2 b3 halpha, ?_⟩
  intro bs h8 h4 h5 h6 h7
  have h := try_from_of_invalid bs h8 (by rw [h4, h5, h6, h7]; exact halpha)
    (by rw [h6]; exact lowercase_not_uppercase b2 hlower)
  rw [h, h4, h5, h6, h7]

/-- C3 witness: the gate at the concrete type "Rust" inside an 8-byte record. -/
theorem C3_witness :
    ChunkType.try_from 82 117 115 116 = Except.ok ⟨82, 117, 115, 116⟩ ∧
    Chunk.try_from [0, 0, 0, 0, 82, 117, 115, 116] =
      ParseResult.err (PngError.invalidChunkType 82 117 115 116) := by
  have h := C3_reserved_bit_gate 82 117 115 116 (by decide) (by decide)
  exact ⟨h.1, h.2 [0, 0, 0, 0, 82, 117, 115, 116] (by decide) rfl rfl rfl rfl⟩

/-- C4: for every input long enough for the record it announces and whose type
passes the validity gate, decode succeeds exactly when the CRC recomputed over
(type bytes ++ data) equals the stored trailing CRC; on mismatch it fails with
the crc-mismatch error whose message names both the recomputed and the stored
value. -/
theorem C4_crc_gate (bs : List Nat)
    (hlen : 8 + dataLen bs + 4 ≤ bs.length)
    (halpha : (isAsciiAlphabetic (bs.getD 4 0) && isAsciiAlphabetic (bs.getD 5 0) &&
               isAsciiAlphabetic (bs.getD 6 0) && isAsciiAlphabetic (bs.getD 7 0)) = true)
    (hupper : isAsciiUppercase (bs.getD 6 0) = true) :
    ((∃ c, Chunk.try_from bs = ParseResult.ok c) ↔
      Chunk.crc ⟨⟨bs.getD 4 0, bs.getD 5 0, bs.getD 6 0, bs.getD 7 0⟩, parsedData bs⟩ =
        storedCrc bs) ∧
    (Chunk.crc ⟨⟨bs.getD 4 0, bs.getD 5 0, bs.getD 6 0, bs.getD 7 0⟩, parsedData bs⟩ ≠
        storedCrc bs →
      Chunk.try_from bs = ParseResult.err (PngError.crcMismatch
        (Chunk.crc ⟨⟨bs.getD 4 0, bs.getD 5 0, bs.getD 6 0, bs.getD 7 0⟩, parsedData bs⟩)
        (storedCrc bs)) ∧
      (PngError.crcMismatch
        (Chunk.crc ⟨⟨bs.getD 4 0, bs.getD 5 0, bs.getD 6 0, bs.getD 7 0⟩, parsedData bs⟩)
        (storedCrc bs)).message =
      "CRC not matching, expected \x27" ++
        toString (Chunk.crc ⟨⟨bs.getD 4 0, bs.getD 5 0, bs.getD 6 0, bs.getD 7 0⟩, parsedData bs⟩) ++
        "\x27, was \x27" ++ toString (storedCrc bs) ++ "\x27") := by
  constructor
  · constructor
    · rintro ⟨c, hc⟩
      obtain ⟨_, _, _, hceq, hcrc⟩ := try_from_ok_inversion bs c hc
      rw [hceq] at hcrc
      exact hcrc
    · intro hcrc
      refine ⟨⟨⟨bs.getD 4 0, bs.getD 5 0, bs.getD 6 0, bs.getD 7 0⟩, parsedData bs⟩, ?_⟩
      rw [try_from_of_valid bs hlen halpha hupper, if_pos hcrc]
  · intro hcrc
    refine ⟨?_, rfl⟩
    rw [try_from_of_valid bs hlen halpha hupper, if_neg hcrc]

/-- C4 witness: a concrete valid record decodes, via the crc-match direction. -/
theorem C4_witness :
    ∃ c, Chunk.try_from [0, 0, 0, 0, 82, 117, 83, 116, 212, 132, 9, 60] = ParseResult.ok c := by
  have h := (C4_crc_gate [0, 0, 0, 0, 82, 117, 83, 116, 212, 132, 9, 60]
    (by decide) (by decide) (by decide)).1
  exact h.mpr (by decide)

/-- C5 counterexample: flipping bit 5 of the third type byte of the well-formed
record for ⟨"RuSt", []⟩ turns the type into "Rust"; decode then fails with the
invalid-chunk-type error, not with a checksum-mismatch error, so the claim that
any single-bit flip in the type bytes yields a checksum-mismatch error is
false. -/
theorem C5_counterexample :
    Chunk.try_from (flipBit (Chunk.as_bytes ⟨⟨82, 117, 83, 116⟩, []⟩) 6 5) =
      ParseResult.err (PngError.invalidChunkType 82 117 115 116) ∧
    ∀ comp stored,
      PngError.invalidChunkType 82 117 115 116 ≠ PngError.crcMismatch comp stored := by
  refine ⟨by decide, ?_⟩
  intro comp stored h
  exact PngError.noConfusion h

/-- C5 (amended): in a well-formed encoded record (alphabetic type with valid
reserved bit, payload bytes < 256, payload length < 2^32), flipping any single
bit of a data byte fails decode with a checksum-mismatch error; flipping any
single bit of a type byte fails decode (with an invalid-type or
checksum-mismatch error); and flipping any single bit of the stored CRC field
fails decode with a checksum-mismatch error whose stored value differs from the
true CRC. -/
theorem C5_single_bit_flip (b0 b1 b2 b3 : Nat) (d : List Nat)
    (halpha : (isAsciiAlphabetic b0 && isAsciiAlphabetic b1 &&
               isAsciiAlphabetic b2 && isAsciiAlphabetic b3) = true)
    (hupper : isAsciiUppercase b2 = true)
    (hbytes : ∀ b ∈ d, b < 256) (hlen : d.length < 2 ^ 32)
    (p j : Nat) (hj : j < 8) :
    (4 ≤ p → p < 8 →
      ∃ e, Chunk.try_from (flipBit (Chunk.as_bytes ⟨⟨b0, b1, b2, b3⟩, d⟩) p j) =
        ParseResult.err e) ∧
    (8 ≤ p → p < 8 + d.length →
      Chunk.try_from (flipBit (Chunk.as_bytes ⟨⟨b0, b1, b2, b3⟩, d⟩) p j) =
        ParseResult.err (PngError.crcMismatch
          (Chunk.crc ⟨⟨b0, b1, b2, b3⟩, d.set (p - 8) (d.getD (p - 8) 0 ^^^ 2 ^ j)⟩)
          (Chunk.crc ⟨⟨b0, b1, b2, b3⟩, d⟩))) ∧
    (8 + d.length ≤ p → p < 8 + d.length + 4 →
      ∃ stored, Chunk.try_from (flipBit (Chunk.as_bytes ⟨⟨b0, b1, b2, b3⟩, d⟩) p j) =
        ParseResult.err (PngError.crcMismatch (Chunk.crc ⟨⟨b0, b1, b2, b3⟩, d⟩) stored) ∧
        stored ≠ Chunk.crc ⟨⟨b0, b1, b2, b3⟩, d⟩) := by
  refine ⟨?_, ?_, ?_⟩
  · intro h1 h2
    obtain ⟨k, rfl⟩ : ∃ k, p = 4 + k := ⟨p - 4, by omega⟩
    exact try_from_flip_type b0 b1 b2 b3 d halpha hupper hbytes hlen k j (by omega) hj
  · intro h1 h2
    obtain ⟨i, rfl⟩ : ∃ i, p = 8 + i := ⟨p - 8, by omega⟩
    rw [show 8 + i - 8 = i from by omega]
    exact try_from_flip_data b0 b1 b2 b3 d halpha hupper hbytes hlen i j (by omega) hj
  · intro h1 h2
    obtain ⟨k, rfl⟩ : ∃ k, p = 8 + d.length + k := ⟨p - (8 + d.length), by omega⟩
    exact try_from_flip_crc b0 b1 b2 b3 d halpha hupper hbytes hlen k j (by omega) hj

/-- C5 witness: flipping bit 0 of the single data byte of ⟨"RuSt", [7]⟩ yields
a checksum-mismatch failure. -/
theorem C5_witness :
    Chunk.try_from (flipBit (Chunk.as_bytes ⟨⟨82, 117, 83, 116⟩, [7]⟩) 8 0) =
      ParseResult.err (PngError.crcMismatch (Chunk.crc ⟨⟨82, 117, 83, 116⟩, [6]⟩)
        (Chunk.crc ⟨⟨82, 117, 83, 116⟩, [7]⟩)) := by
  have h := (C5_single_bit_flip 82 117 83 116 [7] (by decide) (by decide) (by decide)
    (by decide) 8 0 (by decide)).2.1 (by omega) (by decide)
  exact h

/-- C6: property bits of the concrete types — for "RuSt" (82,117,83,116):
critical, not public, reserved bit valid, safe to copy, valid; for "Rust":
reserved bit invalid and not valid overall (though constructible); and
constructing a type from "Ru1t" (82,117,49,116) fails with the non-alphabetic
error. -/
theorem C6_type_properties :
    ChunkType.is_critical ⟨82, 117, 83, 116⟩ = true ∧
    ChunkType.is_public ⟨82, 117, 83, 116⟩ = false ∧
    ChunkType.is_reserved_bit_valid ⟨82, 117, 83, 116⟩ = true ∧
    ChunkType.is_safe_to_copy ⟨82, 117, 83, 116⟩ = true ∧
    ChunkType.is_valid ⟨82, 117, 83, 116⟩ = true ∧
    ChunkType.is_reserved_bit_valid ⟨82, 117, 115, 116⟩ = false ∧
    ChunkType.is_valid ⟨82, 117, 115, 116⟩ = false ∧
    ChunkType.from_str [82, 117, 115, 116] = Except.ok ⟨82, 117, 115, 116⟩ ∧
    ChunkType.from_str [82, 117, 49, 116] = Except.error PngError.chunkTypeNotAlphabetic :=
  ⟨rfl, rfl, rfl, rfl, rfl, rfl, rfl, rfl, rfl⟩

/-- C7 counterexample: for a payload of 2^32 zero bytes (length exceeding
u32::MAX), `Chunk::as_bytes` still returns a byte string — the length field it
emits is the truncated value 0, not the payload length, and no size-limit
error is reported. -/
theorem C7_counterexample :
    (List.replicate (2 ^ 32) (0 : Nat)).length = 2 ^ 32 ∧
    (Chunk.as_bytes ⟨⟨82, 117, 83, 116⟩, List.replicate (2 ^ 32) 0⟩).take 4 = [0, 0, 0, 0] := by
  constructor
  · exact List.length_replicate _ _
  · rw [as_bytes_take4, List.length_replicate, Nat.mod_self]
    decide

/-- C7 (amended): encode produces big-endian u32 of (data length mod 2^32),
then the 4 type bytes, the data, and the big-endian u32 CRC; the length field
read back equals the data byte-length reduced mod 2^32 (so it equals the
byte-length exactly when that is below 2^32, and is silently truncated —
without any size-limit error — when it is not). -/
theorem C7_encode_layout (b0 b1 b2 b3 : Nat) (d : List Nat) :
    Chunk.as_bytes ⟨⟨b0, b1, b2, b3⟩, d⟩ =
      u32ToBE (d.length % 2 ^ 32) ++ [b0, b1, b2, b3] ++ d ++
        u32ToBE (Chunk.crc ⟨⟨b0, b1, b2, b3⟩, d⟩) ∧
    dataLen (Chunk.as_bytes ⟨⟨b0, b1, b2, b3⟩, d⟩) = d.length % 2 ^ 32 := by
  constructor
  · rfl
  · exact dataLen_as_bytes b0 b1 b2 b3 d

/-- C8 (spec-modelled): if some chunk in the container has the given type
text, `remove_by_type` removes exactly the first such chunk, returns it, the
sequence shrinks by one and keeps the order of the remaining chunks; if no
chunk matches, it fails with the chunk-not-found error (the pure model returns
no modified container on failure). -/
theorem C8_remove_semantics (p : Png) (t : List Nat) :
    ((∃ c ∈ p.chunks, c.chunk_type.bytes = t) →
      ∃ pre c post, p.chunks = pre ++ c :: post ∧
        (∀ c2 ∈ pre, c2.chunk_type.bytes ≠ t) ∧ c.chunk_type.bytes = t ∧
        Png.remove_by_type p t = Except.ok (c, ⟨pre ++ post⟩) ∧
        (pre ++ post).length + 1 = p.chunks.length) ∧
    ((∀ c ∈ p.chunks, c.chunk_type.bytes ≠ t) →
      Png.remove_by_type p t = Except.error PngError.chunkNotFound) := by
  constructor
  · intro h
    obtain ⟨pre, c, post, hdecomp, hpre, hc, hrm⟩ := remove_by_type_found p t h
    refine ⟨pre, c, post, hdecomp, hpre, hc, hrm, ?_⟩
    rw [hdecomp]
    simp only [List.length_append, List.length_cons]
    omega
  · exact remove_by_type_absent p t

/-- C8 witness: removing type "RuSt" from a container with two "RuSt" chunks
removes the first occurrence and keeps the second. -/
theorem C8_witness :
    ∃ pre c post,
      ([⟨⟨82, 117, 83, 116⟩, [1]⟩, ⟨⟨82, 117, 83, 116⟩, [2]⟩] : List Chunk) =
        pre ++ c :: post ∧
      (∀ c2 ∈ pre, c2.chunk_type.bytes ≠ [82, 117, 83, 116]) ∧
      c.chunk_type.bytes = [82, 117, 83, 116] ∧
      Png.remove_by_type ⟨[⟨⟨82, 117, 83, 116⟩, [1]⟩, ⟨⟨82, 117, 83, 116⟩, [2]⟩]⟩
        [82, 117, 83, 116] = Except.ok (c, ⟨pre ++ post⟩) ∧
      (pre ++ post).length + 1 =
        ([⟨⟨82, 117, 83, 116⟩, [1]⟩, ⟨⟨82, 117, 83, 116⟩, [2]⟩] : List Chunk).length :=
  (C8_remove_semantics ⟨[⟨⟨82, 117, 83, 116⟩, [1]⟩, ⟨⟨82, 117, 83, 116⟩, [2]⟩]⟩
    [82, 117, 83, 116]).1 ⟨⟨⟨82, 117, 83, 116⟩, [1]⟩, by simp, rfl⟩

/-- C9: decode reads only the first `8 + length-field + 4` bytes — whenever a
slice decodes to a chunk, the truncation of the slice to that prefix decodes
to the same chunk, and so does the prefix followed by arbitrary trailing
bytes. -/
theorem C9_prefix_only (bs : List Nat) (c : Chunk)
    (h : Chunk.try_from bs = ParseResult.ok c) :
    (∀ extra, Chunk.try_from (bs.take (8 + dataLen bs + 4) ++ extra) = ParseResult.ok c) ∧
    Chunk.try_from (bs.take (8 + dataLen bs + 4)) = ParseResult.ok c := by
  refine ⟨try_from_truncated bs c h, ?_⟩
  have h2 := try_from_truncated bs c h []
  simpa using h2

/-- C9 witness: the concrete "RuSt" record still decodes to the same chunk
with junk appended. -/
theorem C9_witness :
    Chunk.try_from ((([0, 0, 0, 0, 82, 117, 83, 116, 212, 132, 9, 60] : List Nat).take
      (8 + dataLen [0, 0, 0, 0, 82, 117, 83, 116, 212, 132, 9, 60] + 4)) ++ [9, 9, 9]) =
      ParseResult.ok ⟨⟨82, 117, 83, 116⟩, []⟩ :=
  (C9_prefix_only [0, 0, 0, 0, 82, 117, 83, 116, 212, 132, 9, 60] ⟨⟨82, 117, 83, 116⟩, []⟩
    (by decide)).1 [9, 9, 9]

/-- C10: `ChunkType::from_str` (on the UTF-8 bytes of the string) fails
whenever the byte length is not exactly 4; for strings of exactly 4 bytes it
succeeds precisely when all 4 bytes are ASCII alphabetic. -/
theorem C10_from_str (s : List Nat) :
    (s.length ≠ 4 → ChunkType.from_str s = Except.error PngError.chunkTypeWrongLength) ∧
    (s.length = 4 →
      ((∃ t, ChunkType.from_str s = Except.ok t) ↔ ∀ b ∈ s, isAsciiAlphabetic b = true)) := by
  constructor
  · intro hne
    match s, hne with
    | [], _ => rfl
    | [a], _ => rfl
    | [a, b], _ => rfl
    | [a, b, c], _ => rfl
    | [a, b, c, e], hne => exact absurd rfl hne
    | a :: b :: c :: e :: f :: rest, _ => rfl
  · intro h4
    match s, h4 with
    | [a, b, c, e], _ =>
      constructor
      · rintro ⟨t, ht⟩
        by_cases hcond : (isAsciiAlphabetic a && isAsciiAlphabetic b &&
            isAsciiAlphabetic c && isAsciiAlphabetic e) = true
        · rw [Bool.and_eq_true, Bool.and_eq_true, Bool.and_eq_true] at hcond
          obtain ⟨⟨⟨h0, h1⟩, h2⟩, h3⟩ := hcond
          intro x hx
          simp at hx
          rcases hx with hx | hx | hx | hx <;> subst hx <;> assumption
        · rw [show ChunkType.from_str [a, b, c, e] = ChunkType.try_from a b c e from rfl,
            chunkType_try_from_of_not_alpha a b c e (by simpa using hcond)] at ht
          simp at ht
      · intro hall
        refine ⟨⟨a, b, c, e⟩, ?_⟩
        rw [show ChunkType.from_str [a, b, c, e] = ChunkType.try_from a b c e from rfl]
        refine chunkType_try_from_of_alpha a b c e ?_
        rw [hall a (by simp), hall b (by simp), hall c (by simp), hall e (by simp)]
        decide

/-- C10 witness: a 2-byte string fails with the wrong-length error, and the
4-byte alphabetic string "RuSt" constructs successfully. -/
theorem C10_witness :
    ChunkType.from_str [82, 117] = Except.error PngError.chunkTypeWrongLength ∧
    ∃ t, ChunkType.from_str [82, 117, 83, 116] = Except.ok t :=
  ⟨(C10_from_str [82, 117]).1 (by decide),
   ((C10_from_str [82, 117, 83, 116]).2 rfl).mpr (by decide)⟩
